import Mathlib

/-!
Verification of the call-analytics pipeline in `app.py` against its
natural-language specification.

The pipeline is shallowly embedded: pandas tables become `List Row`,
numeric cells become `ℚ`, nullable cells become `Option`, and each
pandas operation used by the pipeline (fillna chains, `sort_values`,
`drop_duplicates`, boolean-mask filters, `value_counts`, groupby counts,
`round(2)`) is translated into an executable Lean function following the
source line by line.
-/

/-- Rounding to two decimal places, modelling Python `round(x, 2)` /
pandas `.round(2)` on the exact rational value (half rounds up). -/
def round2 (q : ℚ) : ℚ := (⌊q * 100 + 1/2⌋ : ℚ) / 100

/-- Record Normalizer, disposition cleaning (`app.py` lines 65-70):
`df["Sub Sub Disposition"].replace("", pd.NA).fillna(df["Disposition"]).fillna(df["Dialer Status"])`.
`none` models a pandas missing value (NA); `some ""` models a cell holding
the literal empty string.  Note `replace("", pd.NA)` is applied only to the
`Sub Sub Disposition` column: an empty-string `Disposition` cell is a valid
fill value for `fillna`. -/
def effectiveDisposition (subSub dispo dialer : Option String) : Option String :=
  let s1 : Option String := if subSub = some "" then none else subSub
  let s2 : Option String := match s1 with
    | none => dispo
    | some v => some v
  match s2 with
  | none => dialer
  | some v => some v

/-- Talk-duration normalization (`app.py` line 72):
`pd.to_timedelta(df["Talk Sec"], errors='coerce').dt.total_seconds().fillna(0)`.
The argument is the parse result of the raw cell: `none` when
`to_timedelta` failed to parse (coerced to NaT, hence NaN seconds),
`some q` for a successfully parsed duration of `q` seconds. -/
def talkSeconds (parsed : Option ℚ) : ℚ := parsed.getD 0

/-- Talk-time slot bucketing (`app.py` lines 77-82, `slot_category`). -/
def slot_category (sec : ℚ) : String :=
  if sec = 0 then "No Interaction"
  else if sec < 30 then "Below 30s"
  else if sec < 60 then "30s–1min"
  else if sec < 120 then "1–2min"
  else "Above 2 Min"

/-- One row of the working table (the joined / deduplicated frame):
the columns of `df_merged` that the pipeline reads downstream.
`primaryDisposition = none` models a row left unmatched by the left join
(NaN `Primary Disposition`); `listName = none` models a missing
`List Name` cell. -/
structure Row where
  phone : String
  agent : String
  listName : Option String
  connStatus : String
  talkSec : ℚ
  slot : String
  primaryDisposition : Option String
deriving DecidableEq, Repr

/-- Comparator for `sort_values("Talk Sec", ascending=False)`. -/
def talkSecDesc (a b : Row) : Bool := decide (b.talkSec ≤ a.talkSec)

/-- Sorting step of the Deduplicator (`app.py` line 88):
`df_merged.sort_values("Talk Sec", ascending=False)`. -/
def sortValuesTalkSecDesc (T : List Row) : List Row := T.mergeSort talkSecDesc

/-- Keep-first pass of `drop_duplicates(subset="Phone Number", keep="first")`
(`app.py` line 89): a row survives iff its phone number has not been seen
earlier in the (sorted) list. -/
def dropDuplicatesPhone : List String → List Row → List Row
  | _, [] => []
  | seen, r :: rs =>
    if r.phone ∈ seen then dropDuplicatesPhone seen rs
    else r :: dropDuplicatesPhone (r.phone :: seen) rs

/-- Deduplicator (`app.py` lines 88-89): sort by `Talk Sec` descending,
then keep the first occurrence of each phone number. -/
def deduplicate (T : List Row) : List Row :=
  dropDuplicatesPhone [] (sortValuesTalkSecDesc T)

/-- Connected predicate (`app.py` line 96):
`df_unique["Connected/Not Connected"] == "Connected"`. -/
def isConnected (r : Row) : Bool := r.connStatus == "Connected"

/-- The `connected` sub-frame of `generate_metrics` (`app.py` line 96). -/
def connectedRows (T : List Row) : List Row := T.filter isConnected

/-- `total_dialled = len(df_unique)` (`app.py` line 95). -/
def total_dialled (T : List Row) : ℕ := T.length

/-- `unique_connected = len(connected)` (`app.py` line 97). -/
def unique_connected (T : List Row) : ℕ := (connectedRows T).length

/-- Slot values counted by the `>30s` metrics (`app.py` line 99). -/
def slotsGT30 : List String := ["30s–1min", "1–2min", "Above 2 Min"]

/-- Slot values counted by the `>1min` metrics (`app.py` line 100). -/
def slotsGT1min : List String := ["1–2min", "Above 2 Min"]

/-- `gt_30s` (`app.py` line 99): connected rows whose slot is in `slotsGT30`. -/
def gt_30s (T : List Row) : ℕ :=
  ((connectedRows T).filter (fun r => slotsGT30.contains r.slot)).length

/-- `gt_1min` (`app.py` line 100). -/
def gt_1min (T : List Row) : ℕ :=
  ((connectedRows T).filter (fun r => slotsGT1min.contains r.slot)).length

/-- `gt_2min` (`app.py` line 101): connected rows with slot `"Above 2 Min"`. -/
def gt_2min (T : List Row) : ℕ :=
  ((connectedRows T).filter (fun r => r.slot == "Above 2 Min")).length

/-- `connect_pct` (`app.py` line 103):
`round(unique_connected / total_dialled * 100, 2) if total_dialled else 0`. -/
def connect_pct (T : List Row) : ℚ :=
  if total_dialled T = 0 then 0
  else round2 ((unique_connected T : ℚ) / (total_dialled T : ℚ) * 100)

/-- `pct` (`app.py` line 105):
`round(val / unique_connected * 100, 2) if unique_connected else 0`. -/
def pct (T : List Row) (val : ℚ) : ℚ :=
  if unique_connected T = 0 then 0
  else round2 (val / (unique_connected T : ℚ) * 100)

/-- `disp_counts.get(c, 0)` (`app.py` lines 108-114): number of rows of the
working table whose `Primary Disposition` equals `c` (`value_counts`
ignores NaN, so unmatched rows count toward no category). -/
def dispCount (T : List Row) (c : String) : ℕ :=
  (T.filter (fun r => r.primaryDisposition == some c)).length

/-- `positive_total = fw + vp + vc` (`app.py` line 115). -/
def positive_total (T : List Row) : ℕ :=
  dispCount T "Follow Up" + dispCount T "Virtual Meet Proposed" +
    dispCount T "Virtual Meet Confirmed"

/-- `positive_dispositions` (`app.py` line 107). -/
def positiveDispositions : List String :=
  ["Follow Up", "Virtual Meet Proposed", "Virtual Meet Confirmed"]

/-- Membership test `df_unique["Primary Disposition"].isin(positive_dispositions)`
(`app.py` line 140); a NaN disposition is in no list. -/
def isPositive (r : Row) : Bool :=
  match r.primaryDisposition with
  | some d => positiveDispositions.contains d
  | none => false

/-- Per-agent sub-frame: the group of `groupby("Agent Name")` for agent `a`
(`app.py` line 133). -/
def agentRows (T : List Row) (a : String) : List Row :=
  T.filter (fun r => r.agent == a)

/-- `Unique_Contacts` column (`app.py` line 134): per-agent row count. -/
def Unique_Contacts (T : List Row) (a : String) : ℕ := (agentRows T a).length

/-- `Positive_Outcomes` column (`app.py` lines 140-141): per-agent count of
rows whose `Primary Disposition` is one of the three positive categories. -/
def Positive_Outcomes (T : List Row) (a : String) : ℕ :=
  ((agentRows T a).filter isPositive).length

/-- Per-agent count of one disposition category (one cell of the
`pivot_table` on `app.py` line 148). -/
def agentDispCount (T : List Row) (a c : String) : ℕ :=
  ((agentRows T a).filter (fun r => r.primaryDisposition == some c)).length

/-- Displayed value of the `Effort_to_Positive` column after
`replace([float('inf')], "-")` (`app.py` lines 145-146): a finite number,
the `"-"` sentinel (from `x / 0 = inf` for `x > 0`), or pandas NaN
(from `0 / 0`, which `replace` does not touch). -/
inductive EffortDisplay where
  | num (q : ℚ)
  | dash
  | nan
deriving DecidableEq, Repr

/-- `Effort_to_Positive` (`app.py` lines 145-146):
`(Unique_Contacts / Positive_Outcomes).round(2)` followed by replacing
infinity with `"-"`. -/
def Effort_to_Positive (contacts positives : ℕ) : EffortDisplay :=
  if positives = 0 then
    (if contacts = 0 then .nan else .dash)
  else .num (round2 ((contacts : ℚ) / (positives : ℚ)))

/-- Guard of the List Rollup (`app.py` line 152):
`"List Name" in df_unique.columns and df_unique["List Name"].notna().any()`.
An absent column is modelled as all cells missing. -/
def hasListDim (T : List Row) : Bool := T.any (fun r => r.listName.isSome)

/-- Rows grouped under list `L` by
`groupby(["List Name", "Primary Disposition"]).size()` (`app.py` line 153):
pandas `groupby` drops rows with a missing value in either grouping key,
so only rows with `listName = some L` and a non-null `Primary Disposition`
are counted. -/
def listGroupRows (T : List Row) (L : String) : List Row :=
  T.filter (fun r => r.listName == some L && r.primaryDisposition.isSome)

/-- `Total_Unique` column (`app.py` line 154): row-sum of the per-list
disposition pivot, i.e. the size of the list's group. -/
def Total_Unique (T : List Row) (L : String) : ℕ := (listGroupRows T L).length

/-- One cell of the per-list disposition pivot (`app.py` line 153). -/
def listDispCount (T : List Row) (L c : String) : ℕ :=
  (T.filter (fun r => r.listName == some L && r.primaryDisposition == some c)).length

/-- `Positive` column (`app.py` line 155):
`list_disp.get("Follow Up", 0) + list_disp.get("Virtual Meet Proposed", 0) + list_disp.get("Virtual Meet Confirmed", 0)`. -/
def list_Positive (T : List Row) (L : String) : ℕ :=
  listDispCount T L "Follow Up" + listDispCount T L "Virtual Meet Proposed" +
    listDispCount T L "Virtual Meet Confirmed"

/-- `Positive_%` column (`app.py` line 156):
`(Positive / Total_Unique * 100).round(2)`. -/
def list_Positive_pct (T : List Row) (L : String) : ℚ :=
  round2 ((list_Positive T L : ℚ) / (Total_Unique T L : ℚ) * 100)

/-- The distinct list names appearing as groupby keys, in first-seen order:
exactly the `List Name` values of rows that also carry a non-null
`Primary Disposition` (rows with a missing key in either column are
dropped by `groupby`). -/
def listNames (T : List Row) : List String :=
  (T.filterMap (fun r => if r.primaryDisposition.isSome then r.listName else none)).dedup

/-- One row of `list_disp_summary`. -/
structure ListRollupEntry where
  listName : String
  totalUnique : ℕ
  positive : ℕ
  positivePct : ℚ
deriving DecidableEq, Repr

/-- Comparator for `sort_values("Total_Unique", ascending=False)`
(`app.py` line 157). -/
def totalUniqueDesc (a b : ListRollupEntry) : Bool :=
  decide (b.totalUnique ≤ a.totalUnique)

/-- List Rollup (`app.py` lines 152-159): one entry per grouped list name
with its `Total_Unique`, `Positive` and `Positive_%` columns, sorted
descending by `Total_Unique`; empty when the `List Name` dimension is
absent or entirely null. -/
def list_disposition_summary (T : List Row) : List ListRollupEntry :=
  if hasListDim T then
    ((listNames T).map (fun L =>
      ⟨L, Total_Unique T L, list_Positive T L, list_Positive_pct T L⟩)).mergeSort
      totalUniqueDesc
  else []

/-- Substring occurrence test over character lists, modelling Python
`pat in s`. -/
def occursIn (pat : List Char) : List Char → Bool
  | [] => pat.isEmpty
  | c :: rest => pat.isPrefixOf (c :: rest) || occursIn pat rest

/-- Python `pat in s` on strings. -/
def containsStr (s pat : String) : Bool := occursIn pat.data s.data

/-- The separator of `metric_name.split(" (")` (`app.py` line 331). -/
def sepSpaceParen : List Char := [' ', '(']

/-- First component of Python `s.split(" (")`: the characters before the
first occurrence of the separator (the whole string if it never occurs). -/
def splitHeadSep : List Char → List Char
  | [] => []
  | c :: rest => if sepSpaceParen.isPrefixOf (c :: rest) then [] else c :: splitHeadSep rest

/-- Python `str.strip()`: drop leading and trailing whitespace. -/
def stripWs (s : List Char) : List Char :=
  ((s.dropWhile Char.isWhitespace).reverse.dropWhile Char.isWhitespace).reverse

/-- `disp = metric_name.split(" (")[0].strip()` (`app.py` line 331). -/
def dispOfLabel (name : String) : String := String.mk (stripWs (splitHeadSep name.data))

/-- Drill-Down Resolver `get_filtered_data` (`app.py` lines 319-334). -/
def get_filtered_data (name : String) (T : List Row) : List Row :=
  if containsStr name "Unique Data Dialled" then T
  else if containsStr name "Unique Connected" && !(containsStr name ">") then
    T.filter isConnected
  else if containsStr name ">30s" then T.filter (fun r => slotsGT30.contains r.slot)
  else if containsStr name ">1min" then T.filter (fun r => slotsGT1min.contains r.slot)
  else if containsStr name ">2min" then T.filter (fun r => r.slot == "Above 2 Min")
  else if containsStr name "(%)" then
    T.filter (fun r => r.primaryDisposition == some (dispOfLabel name))
  else []

/-! ## Shared helper lemmas -/

theorem talkSecDesc_trans (a b c : Row) :
    talkSecDesc a b → talkSecDesc b c → talkSecDesc a c := by
  simp only [talkSecDesc, decide_eq_true_eq]
  exact fun h1 h2 => le_trans h2 h1

theorem talkSecDesc_total (a b : Row) : talkSecDesc a b || talkSecDesc b a := by
  simp only [talkSecDesc]
  by_cases h : b.talkSec ≤ a.talkSec <;> simp [h, le_of_not_le]

theorem sorted_sortValues (T : List Row) :
    (sortValuesTalkSecDesc T).Pairwise (fun a b => b.talkSec ≤ a.talkSec) := by
  have := @List.sorted_mergeSort Row talkSecDesc talkSecDesc_trans talkSecDesc_total T
  exact this.imp (by simp [talkSecDesc])

theorem dropDup_sublist (seen : List String) (l : List Row) :
    (dropDuplicatesPhone seen l).Sublist l := by
  induction l generalizing seen with
  | nil => simp [dropDuplicatesPhone]
  | cons r rs ih =>
    simp only [dropDuplicatesPhone]
    split
    · exact (ih seen).cons r
    · exact (ih (r.phone :: seen)).cons₂ r

theorem mem_dropDup_not_seen {seen : List String} {l : List Row} {r : Row}
    (h : r ∈ dropDuplicatesPhone seen l) : r.phone ∉ seen := by
  induction l generalizing seen with
  | nil => simp [dropDuplicatesPhone] at h
  | cons x xs ih =>
    simp only [dropDuplicatesPhone] at h
    split at h
    · exact ih h
    · rcases List.mem_cons.1 h with rfl | h2
      · assumption
      · have := ih h2
        exact fun hc => this (List.mem_cons_of_mem _ hc)

theorem dropDup_nodup (seen : List String) (l : List Row) :
    ((dropDuplicatesPhone seen l).map Row.phone).Nodup := by
  induction l generalizing seen with
  | nil => simp [dropDuplicatesPhone]
  | cons x xs ih =>
    simp only [dropDuplicatesPhone]
    split
    · exact ih seen
    · simp only [List.map_cons, List.nodup_cons]
      refine ⟨?_, ih (x.phone :: seen)⟩
      intro hc
      obtain ⟨r, hr, hp⟩ := List.mem_map.1 hc
      exact mem_dropDup_not_seen hr (hp ▸ List.mem_cons_self _ _)

theorem dropDup_max {seen : List String} {l : List Row} {r : Row}
    (hs : l.Pairwise (fun a b => b.talkSec ≤ a.talkSec))
    (hr : r ∈ dropDuplicatesPhone seen l) :
    ∀ s ∈ l, s.phone = r.phone → s.talkSec ≤ r.talkSec := by
  induction l generalizing seen with
  | nil => simp [dropDuplicatesPhone] at hr
  | cons x xs ih =>
    simp only [dropDuplicatesPhone] at hr
    rw [List.pairwise_cons] at hs
    split at hr
    · intro s hsmem hsp
      rcases List.mem_cons.1 hsmem with rfl | h2
      · exact absurd (hsp ▸ ‹s.phone ∈ seen›) (mem_dropDup_not_seen hr)
      · exact ih hs.2 hr s h2 hsp
    · rcases List.mem_cons.1 hr with rfl | h2
      · intro s hsmem _
        rcases List.mem_cons.1 hsmem with rfl | h2
        · exact le_refl _
        · exact hs.1 s h2
      · intro s hsmem hsp
        rcases List.mem_cons.1 hsmem with rfl | h3
        · exact absurd (hsp ▸ List.mem_cons_self _ _) (mem_dropDup_not_seen h2)
        · exact ih hs.2 h2 s h3 hsp

theorem dropDup_covers {seen : List String} {l : List Row} :
    ∀ s ∈ l, s.phone ∈ seen ∨ ∃ r ∈ dropDuplicatesPhone seen l, r.phone = s.phone := by
  induction l generalizing seen with
  | nil => simp
  | cons x xs ih =>
    intro s hs
    simp only [dropDuplicatesPhone]
    rcases List.mem_cons.1 hs with rfl | h2
    · split
      · exact Or.inl ‹s.phone ∈ seen›
      · exact Or.inr ⟨s, List.mem_cons_self _ _, rfl⟩
    · split
      · exact ih s h2
      · rcases @ih (x.phone :: seen) s h2 with hseen | ⟨r, hrmem, hrp⟩
        · rcases List.mem_cons.1 hseen with heq | hseen2
          · exact Or.inr ⟨x, List.mem_cons_self _ _, heq.symm⟩
          · exact Or.inl hseen2
        · exact Or.inr ⟨r, List.mem_cons_of_mem _ hrmem, hrp⟩

theorem dropDup_length_eq_iff (seen : List String) (l : List Row) :
    (dropDuplicatesPhone seen l).length = l.length ↔
      ((l.map Row.phone).Nodup ∧ ∀ r ∈ l, r.phone ∉ seen) := by
  induction l generalizing seen with
  | nil => simp [dropDuplicatesPhone]
  | cons x xs ih =>
    simp only [dropDuplicatesPhone]
    split
    · have hle := (dropDup_sublist seen xs).length_le
      constructor
      · intro h; simp only [List.length_cons] at h; omega
      · rintro ⟨-, hall⟩
        exact absurd ‹x.phone ∈ seen› (hall x (List.mem_cons_self _ _))
    · simp only [List.length_cons, Nat.add_right_cancel_iff, ih, List.map_cons,
        List.nodup_cons]
      constructor
      · rintro ⟨hnd, hall⟩
        refine ⟨⟨?_, hnd⟩, ?_⟩
        · intro hc
          obtain ⟨r, hr, hp⟩ := List.mem_map.1 hc
          exact hall r hr (hp ▸ List.mem_cons_self _ _)
        · intro r hrmem
          rcases List.mem_cons.1 hrmem with rfl | h2
          · assumption
          · intro hc
            exact hall r h2 (List.mem_cons_of_mem _ hc)
      · rintro ⟨⟨hx, hnd⟩, hall⟩
        refine ⟨hnd, ?_⟩
        intro r hrmem hc
        rcases List.mem_cons.1 hc with h4 | h4
        · exact hx (h4 ▸ List.mem_map_of_mem Row.phone hrmem)
        · exact hall r (List.mem_cons_of_mem _ hrmem) h4

theorem dropDup_eq_self {seen : List String} {l : List Row}
    (hnd : (l.map Row.phone).Nodup) (hdis : ∀ r ∈ l, r.phone ∉ seen) :
    dropDuplicatesPhone seen l = l := by
  induction l generalizing seen with
  | nil => simp [dropDuplicatesPhone]
  | cons x xs ih =>
    simp only [List.map_cons, List.nodup_cons] at hnd
    simp only [dropDuplicatesPhone]
    rw [if_neg (hdis x (List.mem_cons_self _ _))]
    congr 1
    refine ih hnd.2 ?_
    intro r hr hc
    rcases List.mem_cons.1 hc with h4 | h4
    · exact hnd.1 (h4 ▸ List.mem_map_of_mem Row.phone hr)
    · exact hdis r (List.mem_cons_of_mem _ hr) h4

theorem length_filter_or (p q : Row → Bool) (l : List Row)
    (h : ∀ r ∈ l, ¬(p r = true ∧ q r = true)) :
    (l.filter (fun r => p r || q r)).length = (l.filter p).length + (l.filter q).length := by
  induction l with
  | nil => rfl
  | cons r rs ih =>
    have hr := h r (List.mem_cons_self _ _)
    have ih2 := ih (fun s hs => h s (List.mem_cons_of_mem _ hs))
    simp only [List.filter]
    cases hp : p r <;> cases hq : q r <;>
      simp_all [List.length_cons] <;> omega

theorem length_filter_mono (p q : Row → Bool) (l : List Row)
    (h : ∀ r ∈ l, p r = true → q r = true) :
    (l.filter p).length ≤ (l.filter q).length := by
  induction l with
  | nil => simp
  | cons r rs ih =>
    have hr := h r (List.mem_cons_self _ _)
    have ih2 := ih (fun s hs => h s (List.mem_cons_of_mem _ hs))
    simp only [List.filter]
    cases hp : p r
    · cases hq : q r <;> simp [ih2] <;> omega
    · rw [hr hp]; simpa using ih2

theorem round2_nonneg {q : ℚ} (h : 0 ≤ q) : 0 ≤ round2 q := by
  unfold round2
  apply div_nonneg _ (by norm_num)
  have : (0 : ℤ) ≤ ⌊q * 100 + 1/2⌋ := Int.floor_nonneg.2 (by positivity)
  exact_mod_cast this

theorem round2_le_100 {q : ℚ} (h : q ≤ 100) : round2 q ≤ 100 := by
  unfold round2
  rw [div_le_iff₀ (by norm_num : (0:ℚ) < 100)]
  have h1 : q * 100 + 1/2 ≤ 10000 + 1/2 := by nlinarith
  have h2 : (⌊q * 100 + 1/2⌋ : ℤ) ≤ ⌊(10000 : ℚ) + 1/2⌋ := Int.floor_le_floor h1
  have h3 : ⌊(10000 : ℚ) + 1/2⌋ = 10000 := by norm_num
  have h4 : (⌊q * 100 + 1/2⌋ : ℤ) ≤ 10000 := by omega
  calc ((⌊q * 100 + 1/2⌋ : ℤ) : ℚ) ≤ (10000 : ℚ) := by exact_mod_cast h4
    _ = 100 * 100 := by norm_num

theorem round2_hundredth (q : ℚ) : ∃ k : ℤ, round2 q = (k : ℚ) / 100 :=
  ⟨⌊q * 100 + 1/2⌋, rfl⟩

/-! ## Claim theorems -/

/-- C3 counterexample: a record whose `Sub Sub Disposition` and
`Disposition` cells both hold the literal empty string and whose
`Dialer Status` is `"Busy"` gets `EffectiveDisposition` `""`, not
`"Busy"`: `replace("", pd.NA)` is applied only to the first column, so a
present-but-empty `Disposition` is a valid `fillna` fill value and stops
the fallback chain. -/
theorem c3_counterexample :
    effectiveDisposition (some "") (some "") (some "Busy") = some "" ∧
    effectiveDisposition (some "") (some "") (some "Busy") ≠ some "Busy" := by
  constructor <;> decide

/-- C3 (amended): `EffectiveDisposition` is `SubSubDisposition` when that
cell is neither missing nor the empty string; otherwise it is
`Disposition` whenever that cell is present (even when it is the empty
string); otherwise it is `DialerStatus`.  A record with missing (NA)
`Sub Sub Disposition` and `Disposition` and `Dialer Status` `"Busy"`
gets `EffectiveDisposition` `"Busy"`. -/
theorem c3_effective_disposition (subSub dispo dialer : Option String) :
    (subSub ≠ none → subSub ≠ some "" →
      effectiveDisposition subSub dispo dialer = subSub) ∧
    ((subSub = none ∨ subSub = some "") → dispo ≠ none →
      effectiveDisposition subSub dispo dialer = dispo) ∧
    ((subSub = none ∨ subSub = some "") → dispo = none →
      effectiveDisposition subSub dispo dialer = dialer) ∧
    effectiveDisposition none none (some "Busy") = some "Busy" := by
  refine ⟨?_, ?_, ?_, rfl⟩
  · intro h1 h2
    cases subSub with
    | none => exact absurd rfl h1
    | some v =>
      simp only [effectiveDisposition]
      rw [if_neg h2]
  · intro h1 h2
    cases dispo with
    | none => exact absurd rfl h2
    | some d =>
      rcases h1 with rfl | rfl <;> simp [effectiveDisposition]
  · intro h1 h2
    subst h2
    rcases h1 with rfl | rfl <;> simp [effectiveDisposition]

/-- C3 witness: the amended theorem applied at a concrete record. -/
theorem c3_witness :
    effectiveDisposition (some "Interested") (some "") (some "Busy") = some "Interested" :=
  (c3_effective_disposition (some "Interested") (some "") (some "Busy")).1
    (by decide) (by decide)

/-- C4: `slot_category` always yields one of the five categories, follows
the documented total order with inclusive-lower/exclusive-upper
boundaries, routes the documented boundary values as stated, and an
unparsable duration (modelled `none`, defaulted to 0 seconds) lands in
`"No Interaction"`. -/
theorem c4_slot_category (sec : ℚ) :
    (slot_category sec = "No Interaction" ∨ slot_category sec = "Below 30s" ∨
      slot_category sec = "30s–1min" ∨ slot_category sec = "1–2min" ∨
      slot_category sec = "Above 2 Min") ∧
    (sec = 0 → slot_category sec = "No Interaction") ∧
    (0 < sec → sec < 30 → slot_category sec = "Below 30s") ∧
    (30 ≤ sec → sec < 60 → slot_category sec = "30s–1min") ∧
    (60 ≤ sec → sec < 120 → slot_category sec = "1–2min") ∧
    (120 ≤ sec → slot_category sec = "Above 2 Min") ∧
    slot_category (talkSeconds none) = "No Interaction" ∧
    slot_category (29999/1000) = "Below 30s" ∧
    slot_category 30 = "30s–1min" ∧
    slot_category (59999/1000) = "30s–1min" ∧
    slot_category 60 = "1–2min" ∧
    slot_category (119999/1000) = "1–2min" ∧
    slot_category 120 = "Above 2 Min" := by
  refine ⟨?_, ?_, ?_, ?_, ?_, ?_, ?_, ?_, ?_, ?_, ?_, ?_, ?_⟩
  · unfold slot_category
    split_ifs <;> simp
  · intro h
    unfold slot_category
    rw [if_pos h]
  · intro h1 h2
    unfold slot_category
    rw [if_neg (by linarith), if_pos h2]
  · intro h1 h2
    unfold slot_category
    rw [if_neg (by linarith), if_neg (by linarith), if_pos h2]
  · intro h1 h2
    unfold slot_category
    rw [if_neg (by linarith), if_neg (by linarith), if_neg (by linarith), if_pos h2]
  · intro h1
    unfold slot_category
    rw [if_neg (by linarith), if_neg (by linarith), if_neg (by linarith),
      if_neg (by linarith)]
  · rfl
  · unfold slot_category; norm_num
  · unfold slot_category; norm_num
  · unfold slot_category; norm_num
  · unfold slot_category; norm_num
  · unfold slot_category; norm_num
  · unfold slot_category; norm_num

/-- C4 witness: the boundary-order clauses applied at a concrete duration. -/
theorem c4_witness :
    (30 : ℚ) ≤ 45 ∧ (45 : ℚ) < 60 ∧ slot_category 45 = "30s–1min" :=
  ⟨by norm_num, by norm_num,
    (c4_slot_category 45).2.2.2.1 (by norm_num) (by norm_num)⟩

/-- C6: deduplication is idempotent: deduplicating an already-deduplicated
table is a no-op. -/
theorem c6_deduplicate_idempotent (T : List Row) :
    deduplicate (deduplicate T) = deduplicate T := by
  have hsorted : (deduplicate T).Pairwise (fun a b => b.talkSec ≤ a.talkSec) :=
    (sorted_sortValues T).sublist (dropDup_sublist _ _)
  have hsortB : (deduplicate T).Pairwise (fun a b => talkSecDesc a b) :=
    hsorted.imp (by simp [talkSecDesc])
  have h1 : sortValuesTalkSecDesc (deduplicate T) = deduplicate T :=
    List.mergeSort_of_sorted hsortB
  unfold deduplicate at h1 ⊢
  rw [h1]
  exact dropDup_eq_self (dropDup_nodup _ _) (by simp)

/-- C7: with a zero unique-connected count the aggregator yields 0 for
`Connect %` and for every category percentage (the `pct` helper returns 0
for any numerator), raising no exception and producing no NaN or
infinity: both percentage helpers are total functions guarded on their
fixed denominators. -/
theorem c7_zero_denominator (T : List Row) (h : unique_connected T = 0) :
    connect_pct T = 0 ∧ (∀ v : ℚ, pct T v = 0) := by
  constructor
  · unfold connect_pct
    split
    · rfl
    · rw [h]
      norm_num [round2]
  · intro v
    unfold pct
    rw [if_pos h]

/-- C7 witness: the theorem applied to a one-row table with no connected
record. -/
theorem c7_witness :
    connect_pct [⟨"111", "A", none, "Not Connected", 0, "No Interaction", none⟩] = 0 ∧
    (∀ v : ℚ,
      pct [⟨"111", "A", none, "Not Connected", 0, "No Interaction", none⟩] v = 0) :=
  c7_zero_denominator _ (by rfl)

/-- C10: a metric label matching none of the drill-down rules (it does not
contain `"Unique Data Dialled"`, does not contain `"Unique Connected"`
without also containing `">"`, and contains none of `">30s"`, `">1min"`,
`">2min"`, `"(%)"`) resolves to the empty row set on every working
table, through the total `else` branch — no exception is possible. -/
theorem c10_unmatched_label (name : String) (T : List Row)
    (h1 : containsStr name "Unique Data Dialled" = false)
    (h2 : ¬(containsStr name "Unique Connected" = true ∧ containsStr name ">" = false))
    (h3 : containsStr name ">30s" = false)
    (h4 : containsStr name ">1min" = false)
    (h5 : containsStr name ">2min" = false)
    (h6 : containsStr name "(%)" = false) :
    get_filtered_data name T = [] := by
  have h2b : (containsStr name "Unique Connected" && !(containsStr name ">")) = false := by
    cases hA : containsStr name "Unique Connected" <;>
      cases hB : containsStr name ">" <;> simp_all
  simp [get_filtered_data, h1, h2b, h3, h4, h5, h6]

/-- C10 witness: the theorem applied to a concrete non-metric label. -/
theorem c10_witness : get_filtered_data "Hourly Trend" [] = [] :=
  c10_unmatched_label "Hourly Trend" [] (by decide) (by decide) (by decide)
    (by decide) (by decide) (by decide)

/-- C5: deduplication keeps at most one record per distinct phone number
(the output phone column has no duplicates), every retained record comes
from the input, every input phone number is still represented, the
retained record for a phone number carries the maximum `TalkSeconds`
among all attempts for that number, and the output row count is at most
the input row count with equality exactly when all input phone numbers
are distinct. -/
theorem c5_deduplicate (T : List Row) :
    ((deduplicate T).map Row.phone).Nodup ∧
    (∀ r ∈ deduplicate T, r ∈ T) ∧
    (∀ s ∈ T, ∃ r ∈ deduplicate T, r.phone = s.phone) ∧
    (∀ r ∈ deduplicate T, ∀ s ∈ T, s.phone = r.phone → s.talkSec ≤ r.talkSec) ∧
    (deduplicate T).length ≤ T.length ∧
    ((deduplicate T).length = T.length ↔ (T.map Row.phone).Nodup) := by
  refine ⟨dropDup_nodup _ _, ?_, ?_, ?_, ?_, ?_⟩
  · intro r hr
    exact List.mem_mergeSort.1 ((dropDup_sublist _ _).mem hr)
  · intro s hs
    have hs2 : s ∈ sortValuesTalkSecDesc T := List.mem_mergeSort.2 hs
    rcases @dropDup_covers [] (sortValuesTalkSecDesc T) s hs2 with hc | h
    · simp at hc
    · exact h
  · intro r hr s hs hsp
    exact dropDup_max (sorted_sortValues T) hr s (List.mem_mergeSort.2 hs) hsp
  · calc (deduplicate T).length ≤ (sortValuesTalkSecDesc T).length :=
          (dropDup_sublist _ _).length_le
      _ = T.length := List.length_mergeSort T
  · have h1 := dropDup_length_eq_iff [] (sortValuesTalkSecDesc T)
    have h2 : (sortValuesTalkSecDesc T).length = T.length := List.length_mergeSort T
    have h3 : ((sortValuesTalkSecDesc T).map Row.phone).Nodup ↔
        (T.map Row.phone).Nodup :=
      ((List.mergeSort_perm T talkSecDesc).map Row.phone).nodup_iff
    unfold deduplicate
    rw [← h2, h1, h3]
    simp

/-- Concrete joined table for the C5 witness: three attempts for phone
`"111"` (talk seconds 45, 10, 0) and one for `"222"` (200), listed in
descending talk-time order. -/
def tableC5 : List Row :=
  [⟨"222", "B", none, "Connected", 200, "Above 2 Min", none⟩,
   ⟨"111", "A", none, "Connected", 45, "30s–1min", none⟩,
   ⟨"111", "A", none, "Connected", 10, "Below 30s", none⟩,
   ⟨"111", "A", none, "Not Connected", 0, "No Interaction", none⟩]

/-- Evaluation of the Deduplicator on `tableC5`: the best call per phone
number is retained. -/
theorem deduplicate_tableC5 :
    deduplicate tableC5 =
      [⟨"222", "B", none, "Connected", 200, "Above 2 Min", none⟩,
       ⟨"111", "A", none, "Connected", 45, "30s–1min", none⟩] := by
  unfold deduplicate sortValuesTalkSecDesc
  rw [List.mergeSort_of_sorted (by decide : tableC5.Pairwise (fun a b => talkSecDesc a b))]
  decide

/-- C5 witness: the theorem applied to `tableC5`, with the membership and
phone-equality hypotheses discharged on the retained record for `"111"`
and the attempt with talk seconds 10. -/
theorem c5_witness :
    (⟨"111", "A", none, "Connected", 10, "Below 30s", none⟩ : Row).talkSec ≤
      (⟨"111", "A", none, "Connected", 45, "30s–1min", none⟩ : Row).talkSec ∧
    (deduplicate tableC5).length ≤ tableC5.length :=
  ⟨(c5_deduplicate tableC5).2.2.2.1
      ⟨"111", "A", none, "Connected", 45, "30s–1min", none⟩
      (by rw [deduplicate_tableC5]; decide)
      ⟨"111", "A", none, "Connected", 10, "Below 30s", none⟩
      (by decide) (by decide),
    (c5_deduplicate tableC5).2.2.2.2.1⟩

/-- C8: in the Agent Rollup, for every working table and every agent the
`Positive_Outcomes` column equals the row-wise sum of the agent's
`Follow Up`, `Virtual Meet Proposed` and `Virtual Meet Confirmed` counts
(0 when the agent has none of them), and for every agent that actually
occurs in the table `Effort_to_Positive` is the `"-"` sentinel when
`Positive_Outcomes` is 0 and otherwise the contact count divided by
`Positive_Outcomes` rounded to 2 decimals — never NaN and never an
infinity (the displayed value type has no infinity). -/
theorem c8_agent_rollup (T : List Row) (a : String) :
    Positive_Outcomes T a =
      agentDispCount T a "Follow Up" + agentDispCount T a "Virtual Meet Proposed" +
        agentDispCount T a "Virtual Meet Confirmed" ∧
    ((∃ r ∈ T, r.agent = a) →
      Effort_to_Positive (Unique_Contacts T a) (Positive_Outcomes T a) ≠ EffortDisplay.nan ∧
      (Positive_Outcomes T a = 0 →
        Effort_to_Positive (Unique_Contacts T a) (Positive_Outcomes T a) =
          EffortDisplay.dash) ∧
      (Positive_Outcomes T a ≠ 0 →
        Effort_to_Positive (Unique_Contacts T a) (Positive_Outcomes T a) =
          EffortDisplay.num
            (round2 ((Unique_Contacts T a : ℚ) / (Positive_Outcomes T a : ℚ))))) := by
  constructor
  · unfold Positive_Outcomes agentDispCount
    have hcongr : (agentRows T a).filter isPositive =
        (agentRows T a).filter (fun r =>
          (r.primaryDisposition == some "Follow Up") ||
            ((r.primaryDisposition == some "Virtual Meet Proposed") ||
              (r.primaryDisposition == some "Virtual Meet Confirmed"))) := by
      apply List.filter_congr
      intro r _
      rw [Bool.eq_iff_iff]
      cases hd : r.primaryDisposition with
      | none => simp [isPositive, hd]
      | some d =>
        simp [isPositive, hd, positiveDispositions, List.contains, List.elem_iff]
    rw [hcongr]
    rw [length_filter_or _ _ _ ?disj]
    case disj =>
      rintro r _ ⟨hp, hq⟩
      rcases Bool.or_eq_true_iff.1 hq with h | h <;>
        · rw [beq_iff_eq] at hp h
          rw [hp] at h
          simp at h
    rw [length_filter_or _ _ _ ?disj2]
    case disj2 =>
      rintro r _ ⟨hp, hq⟩
      rw [beq_iff_eq] at hp hq
      rw [hp] at hq
      simp at hq
    omega
  · rintro ⟨r, hr, ha⟩
    have hmem : r ∈ agentRows T a := by
      unfold agentRows
      rw [List.mem_filter]
      exact ⟨hr, by rw [beq_iff_eq]; exact ha⟩
    have hpos : 0 < Unique_Contacts T a := by
      unfold Unique_Contacts
      exact List.length_pos.2 (List.ne_nil_of_mem hmem)
    refine ⟨?_, ?_, ?_⟩
    · unfold Effort_to_Positive
      split
      · rw [if_neg (by omega)]
        simp
      · simp
    · intro h0
      unfold Effort_to_Positive
      rw [if_pos h0, if_neg (by omega)]
    · intro h0
      unfold Effort_to_Positive
      rw [if_neg h0]

/-- Concrete working table for the C8 witness: agent `"A"` has two
contacts, one with a positive disposition; agent `"B"` has one contact
with no positive disposition. -/
def tableC8 : List Row :=
  [⟨"111", "A", none, "Connected", 45, "30s–1min", some "Follow Up"⟩,
   ⟨"222", "A", none, "Connected", 10, "Below 30s", some "Lost"⟩,
   ⟨"333", "B", none, "Not Connected", 0, "No Interaction", none⟩]

/-- C8 witness: the theorem applied to `tableC8` for agent `"B"`, whose
zero positive outcomes display as the `"-"` sentinel. -/
theorem c8_witness :
    Positive_Outcomes tableC8 "B" =
      agentDispCount tableC8 "B" "Follow Up" +
        agentDispCount tableC8 "B" "Virtual Meet Proposed" +
        agentDispCount tableC8 "B" "Virtual Meet Confirmed" ∧
    Effort_to_Positive (Unique_Contacts tableC8 "B") (Positive_Outcomes tableC8 "B") =
      EffortDisplay.dash :=
  ⟨(c8_agent_rollup tableC8 "B").1,
    ((c8_agent_rollup tableC8 "B").2
        ⟨⟨"333", "B", none, "Not Connected", 0, "No Interaction", none⟩,
          by decide, rfl⟩).2.1 (by decide)⟩

/-! ## List-rollup helper lemmas -/

theorem listDispCount_eq_group (T : List Row) (L c : String) :
    listDispCount T L c =
      ((listGroupRows T L).filter (fun r => r.primaryDisposition == some c)).length := by
  unfold listDispCount listGroupRows
  rw [List.filter_filter]
  congr 1
  apply List.filter_congr
  intro r _
  rw [Bool.eq_iff_iff]
  cases hd : r.primaryDisposition with
  | none => simp [hd]
  | some d => simp [hd, and_comm]

theorem list_Positive_le (T : List Row) (L : String) :
    list_Positive T L ≤ Total_Unique T L := by
  unfold list_Positive Total_Unique
  rw [listDispCount_eq_group, listDispCount_eq_group, listDispCount_eq_group]
  have hd1 : ∀ r ∈ listGroupRows T L,
      ¬((r.primaryDisposition == some "Follow Up") = true ∧
        (r.primaryDisposition == some "Virtual Meet Proposed") = true) := by
    rintro r _ ⟨h1, h2⟩
    rw [beq_iff_eq] at h1 h2
    rw [h1] at h2
    simp at h2
  have h1 := length_filter_or (fun r => r.primaryDisposition == some "Follow Up")
    (fun r => r.primaryDisposition == some "Virtual Meet Proposed") (listGroupRows T L) hd1
  have hd2 : ∀ r ∈ listGroupRows T L,
      ¬((fun r => (r.primaryDisposition == some "Follow Up") ||
          (r.primaryDisposition == some "Virtual Meet Proposed")) r = true ∧
        (r.primaryDisposition == some "Virtual Meet Confirmed") = true) := by
    rintro r _ ⟨h1, h2⟩
    rw [beq_iff_eq] at h2
    rcases Bool.or_eq_true_iff.1 h1 with h | h <;>
      · rw [beq_iff_eq] at h
        rw [h2] at h
        simp at h
  have h2 := length_filter_or
    (fun r => (r.primaryDisposition == some "Follow Up") ||
      (r.primaryDisposition == some "Virtual Meet Proposed"))
    (fun r => r.primaryDisposition == some "Virtual Meet Confirmed")
    (listGroupRows T L) hd2
  rw [← h1, ← h2]
  exact List.length_filter_le _ _

theorem list_Positive_pct_bounds (T : List Row) (L : String) :
    0 ≤ list_Positive_pct T L ∧ list_Positive_pct T L ≤ 100 := by
  unfold list_Positive_pct
  rcases Nat.eq_zero_or_pos (Total_Unique T L) with h0 | hpos
  · have hp0 : list_Positive T L = 0 := Nat.le_zero.1 (h0 ▸ list_Positive_le T L)
    rw [h0, hp0]
    norm_num [round2]
  · have h1 : (0:ℚ) ≤ (list_Positive T L : ℚ) / (Total_Unique T L : ℚ) * 100 := by
      positivity
    have h2 : (list_Positive T L : ℚ) / (Total_Unique T L : ℚ) * 100 ≤ 100 := by
      have hle : (list_Positive T L : ℚ) ≤ (Total_Unique T L : ℚ) := by
        exact_mod_cast list_Positive_le T L
      have hTU : (0:ℚ) < (Total_Unique T L : ℚ) := by exact_mod_cast hpos
      rw [mul_comm, ← mul_div_assoc, div_le_iff₀ hTU]
      nlinarith
    exact ⟨round2_nonneg h1, round2_le_100 h2⟩

/-- Concrete working table refuting C2: one connected row with no matched
disposition and two not-connected rows dispositioned `"SDW"`.  The
category numerator counts all rows but the denominator only the
connected ones. -/
def tableC2 : List Row :=
  [⟨"1", "A", none, "Connected", 45, "30s–1min", none⟩,
   ⟨"2", "A", none, "Not Connected", 0, "No Interaction", some "SDW"⟩,
   ⟨"3", "A", none, "Not Connected", 0, "No Interaction", some "SDW"⟩]

/-- C2 counterexample: on `tableC2` the `SDW (%)` value produced by the
aggregator is 200, outside `[0, 100]`: disposition counts are taken over
the whole working table while the percentage denominator is the
unique-connected count. -/
theorem c2_counterexample :
    pct tableC2 (dispCount tableC2 "SDW") = 200 ∧
    ¬(pct tableC2 (dispCount tableC2 "SDW") ≤ 100) := by
  have h1 : unique_connected tableC2 = 1 := by decide
  have h2 : dispCount tableC2 "SDW" = 2 := by decide
  have h : pct tableC2 (dispCount tableC2 "SDW") = 200 := by
    unfold pct
    rw [h1, h2]
    norm_num [round2]
  exact ⟨h, by rw [h]; norm_num⟩

/-- C2 (amended): every percentage produced by the pipeline is a
nonnegative multiple of 1/100 (two-decimal rounding); `Connect %` and the
List Rollup's `Positive_%` always lie in `[0, 100]`; a Primary
Disposition category percentage (including `Total Positive`) lies in
`[0, 100]` whenever its count does not exceed the unique-connected
count, but can exceed 100 otherwise because the numerator counts all
rows of the working table while the denominator counts only the
connected ones. -/
theorem c2_percentages (T : List Row) (v : ℚ) (hv : 0 ≤ v) :
    (0 ≤ connect_pct T ∧ connect_pct T ≤ 100 ∧
      ∃ k : ℤ, connect_pct T = (k : ℚ) / 100) ∧
    (0 ≤ pct T v ∧ (∃ k : ℤ, pct T v = (k : ℚ) / 100) ∧
      (v ≤ (unique_connected T : ℚ) → pct T v ≤ 100)) ∧
    (∀ e ∈ list_disposition_summary T,
      0 ≤ e.positivePct ∧ e.positivePct ≤ 100 ∧
        ∃ k : ℤ, e.positivePct = (k : ℚ) / 100) := by
  refine ⟨?_, ?_, ?_⟩
  · unfold connect_pct
    split
    · exact ⟨le_refl 0, by norm_num, 0, by norm_num⟩
    · have htd : 0 < total_dialled T := Nat.pos_of_ne_zero (by assumption)
      have htdQ : (0:ℚ) < (total_dialled T : ℚ) := by exact_mod_cast htd
      have huc : unique_connected T ≤ total_dialled T := List.length_filter_le _ _
      have hucQ : (unique_connected T : ℚ) ≤ (total_dialled T : ℚ) := by
        exact_mod_cast huc
      have h1 : (0:ℚ) ≤ (unique_connected T : ℚ) / (total_dialled T : ℚ) * 100 := by
        positivity
      have h2 : (unique_connected T : ℚ) / (total_dialled T : ℚ) * 100 ≤ 100 := by
        rw [mul_comm, ← mul_div_assoc, div_le_iff₀ htdQ]
        nlinarith
      exact ⟨round2_nonneg h1, round2_le_100 h2, round2_hundredth _⟩
  · unfold pct
    split
    · exact ⟨le_refl 0, ⟨0, by norm_num⟩, fun _ => by norm_num⟩
    · have huc : 0 < unique_connected T := Nat.pos_of_ne_zero (by assumption)
      have hucQ : (0:ℚ) < (unique_connected T : ℚ) := by exact_mod_cast huc
      refine ⟨round2_nonneg (by positivity), round2_hundredth _, ?_⟩
      intro hle
      apply round2_le_100
      rw [mul_comm, ← mul_div_assoc, div_le_iff₀ hucQ]
      nlinarith
  · intro e he
    unfold list_disposition_summary at he
    split at he
    · have he2 := List.mem_mergeSort.1 he
      obtain ⟨L, hL, rfl⟩ := List.mem_map.1 he2
      exact ⟨(list_Positive_pct_bounds T L).1, (list_Positive_pct_bounds T L).2,
        round2_hundredth _⟩
    · simp at he

/-- C2 witness: the amended theorem applied to `tableC2` with numerator 1
(which does not exceed the unique-connected count). -/
theorem c2_witness : 0 ≤ connect_pct tableC2 ∧ pct tableC2 1 ≤ 100 :=
  ⟨(c2_percentages tableC2 1 (by norm_num)).1.1,
    (c2_percentages tableC2 1 (by norm_num)).2.1.2.2
      (by rw [show unique_connected tableC2 = 1 from by decide]; norm_num)⟩

theorem totalUniqueDesc_trans (a b c : ListRollupEntry) :
    totalUniqueDesc a b → totalUniqueDesc b c → totalUniqueDesc a c := by
  simp only [totalUniqueDesc, decide_eq_true_eq]
  omega

theorem totalUniqueDesc_total (a b : ListRollupEntry) :
    totalUniqueDesc a b || totalUniqueDesc b a := by
  simp only [totalUniqueDesc]
  rcases le_total b.totalUnique a.totalUnique with h | h <;> simp [h]

/-- Concrete working table refuting C9: list `"L"` has two rows, one of
them with an unmatched (null) `Primary Disposition`. -/
def tableC9 : List Row :=
  [⟨"1", "A", some "L", "Connected", 45, "30s–1min", some "SDW"⟩,
   ⟨"2", "A", some "L", "Connected", 10, "Below 30s", none⟩]

/-- C9 counterexample: on `tableC9` the List Rollup's `Total_Unique` for
list `"L"` is 1 while the working table has 2 rows for that list:
`groupby(["List Name", "Primary Disposition"])` silently drops the row
whose disposition is null. -/
theorem c9_counterexample :
    Total_Unique tableC9 "L" = 1 ∧
    (tableC9.filter (fun r => r.listName == some "L")).length = 2 ∧
    Total_Unique tableC9 "L" ≠
      (tableC9.filter (fun r => r.listName == some "L")).length := by
  refine ⟨by decide, by decide, by decide⟩

/-- C9 (amended): the List Rollup is empty (with no error) when the
list-name dimension is absent or entirely null; its rows are sorted
descending by `Total_Unique`; and every reported entry has
`Total_Unique` equal to the number of rows of that list *that carry a
non-null Primary Disposition* (at least 1), `Positive` equal to the sum
of the list's `Follow Up`, `Virtual Meet Proposed` and
`Virtual Meet Confirmed` counts, and `Positive_%` equal to
`Positive / Total_Unique × 100` rounded to 2 decimals.  `Total_Unique`
equals the plain row count of the list exactly when every row of that
list has a non-null disposition. -/
theorem c9_list_rollup (T : List Row) :
    (hasListDim T = false → list_disposition_summary T = []) ∧
    (list_disposition_summary T).Pairwise
      (fun a b => b.totalUnique ≤ a.totalUnique) ∧
    (∀ e ∈ list_disposition_summary T,
      e.totalUnique = Total_Unique T e.listName ∧
      e.positive = list_Positive T e.listName ∧
      e.positivePct = list_Positive_pct T e.listName ∧
      1 ≤ e.totalUnique ∧
      ((∀ r ∈ T, r.listName = some e.listName → r.primaryDisposition.isSome) →
        e.totalUnique = (T.filter (fun r => r.listName == some e.listName)).length)) := by
  refine ⟨?_, ?_, ?_⟩
  · intro h
    simp [list_disposition_summary, h]
  · unfold list_disposition_summary
    split
    · exact (List.sorted_mergeSort totalUniqueDesc_trans totalUniqueDesc_total _).imp
        (by simp [totalUniqueDesc])
    · simp
  · intro e he
    unfold list_disposition_summary at he
    split at he
    · obtain ⟨L, hL, rfl⟩ := List.mem_map.1 (List.mem_mergeSort.1 he)
      refine ⟨rfl, rfl, rfl, ?_, ?_⟩
      · obtain ⟨r, hrT, hrL, hrS⟩ :
            ∃ r ∈ T, r.listName = some L ∧ r.primaryDisposition.isSome := by
          obtain ⟨r, hrT, hr⟩ := List.mem_filterMap.1 (List.mem_dedup.1 hL)
          by_cases hs : r.primaryDisposition.isSome
          · rw [if_pos hs] at hr
            exact ⟨r, hrT, hr, hs⟩
          · rw [if_neg hs] at hr
            simp at hr
        have hmem : r ∈ listGroupRows T L := by
          unfold listGroupRows
          rw [List.mem_filter]
          exact ⟨hrT, by simp [hrL, hrS]⟩
        exact List.length_pos.2 (List.ne_nil_of_mem hmem)
      · intro hyp
        show Total_Unique T L = _
        unfold Total_Unique listGroupRows
        congr 1
        apply List.filter_congr
        intro r hr
        rw [Bool.eq_iff_iff]
        simp only [Bool.and_eq_true, beq_iff_eq]
        constructor
        · exact fun h => h.1
        · intro h
          exact ⟨h, hyp r hr h⟩
    · simp at he

/-- Concrete working table for the C9 witness: a single list `"L"` whose
only row has a matched disposition. -/
def tableC9w : List Row :=
  [⟨"1", "A", some "L", "Connected", 45, "30s–1min", some "SDW"⟩]

/-- Evaluation of the List Rollup on `tableC9w`. -/
theorem list_summary_tableC9w :
    list_disposition_summary tableC9w =
      [⟨"L", Total_Unique tableC9w "L", list_Positive tableC9w "L",
        list_Positive_pct tableC9w "L"⟩] := by
  unfold list_disposition_summary
  rw [if_pos (show hasListDim tableC9w = true from by decide)]
  rw [show listNames tableC9w = ["L"] from by decide]
  rw [List.map_singleton, List.mergeSort_singleton]

/-- C9 witness: the amended theorem applied to `tableC9w`, where every row
of list `"L"` has a non-null disposition, so `Total_Unique` equals the
plain row count of the list. -/
theorem c9_witness :
    Total_Unique tableC9w "L" =
      (tableC9w.filter (fun r => r.listName == some "L")).length :=
  ((c9_list_rollup tableC9w).2.2
      ⟨"L", Total_Unique tableC9w "L", list_Positive tableC9w "L",
        list_Positive_pct tableC9w "L"⟩
      (by rw [list_summary_tableC9w]; exact List.mem_singleton.2 rfl)).2.2.2.2
    (by decide)

/-- Concrete working table refuting C1: a single not-connected row whose
slot is `"Above 2 Min"` and whose disposition is `"Follow Up"`. -/
def tableC1 : List Row :=
  [⟨"1", "A", none, "Not Connected", 200, "Above 2 Min", some "Follow Up"⟩]

/-- C1 counterexample: on `tableC1` the `>2min` drill-down returns 1 row
while the `Unique Connected >2min` metric is 0 (the resolver omits the
connected filter that the metric applies), and the
`Total Positive (%)` drill-down returns 0 rows while the metric's
underlying count `positive_total` is 1 (the resolver looks for the
literal disposition `"Total Positive"`, which is not a category). -/
theorem c1_counterexample :
    (get_filtered_data "Unique Connected >2min" tableC1).length = 1 ∧
    gt_2min tableC1 = 0 ∧
    (get_filtered_data "Unique Connected >2min" tableC1).length ≠ gt_2min tableC1 ∧
    (get_filtered_data "Total Positive (%)" tableC1).length = 0 ∧
    positive_total tableC1 = 1 ∧
    (get_filtered_data "Total Positive (%)" tableC1).length ≠ positive_total tableC1 := by
  refine ⟨by decide, by decide, by decide, by decide, by decide, by decide⟩

/-- C1 (amended): the drill-down row count equals the summary count for
`Unique Data Dialled`, for `Unique Connected`, and for each individual
category percentage label (`SDW (%)`, `Lost (%)`, `Follow Up (%)`,
`Virtual Meet Proposed (%)`, `Virtual Meet Confirmed (%)`), whose row
set is exactly the rows counted by its underlying category count.  The
threshold labels resolve to all rows in the corresponding slots with no
connected filter, so their counts equal the summary metrics exactly when
every row in those slots is connected; and `Total Positive (%)` resolves
to rows whose literal disposition is `"Total Positive"`, not to the
union of the three positive categories. -/
theorem c1_drilldown_counts (T : List Row) :
    (get_filtered_data "Unique Data Dialled" T).length = total_dialled T ∧
    (get_filtered_data "Unique Connected" T).length = unique_connected T ∧
    (get_filtered_data "SDW (%)" T).length = dispCount T "SDW" ∧
    (get_filtered_data "Lost (%)" T).length = dispCount T "Lost" ∧
    (get_filtered_data "Follow Up (%)" T).length = dispCount T "Follow Up" ∧
    (get_filtered_data "Virtual Meet Proposed (%)" T).length =
      dispCount T "Virtual Meet Proposed" ∧
    (get_filtered_data "Virtual Meet Confirmed (%)" T).length =
      dispCount T "Virtual Meet Confirmed" ∧
    get_filtered_data "Total Positive (%)" T =
      T.filter (fun r => r.primaryDisposition == some "Total Positive") ∧
    get_filtered_data "Unique Connected >30s" T =
      T.filter (fun r => slotsGT30.contains r.slot) ∧
    get_filtered_data "Unique Connected >1min" T =
      T.filter (fun r => slotsGT1min.contains r.slot) ∧
    get_filtered_data "Unique Connected >2min" T =
      T.filter (fun r => r.slot == "Above 2 Min") ∧
    ((∀ r ∈ T, slotsGT30.contains r.slot = true → isConnected r = true) →
      (get_filtered_data "Unique Connected >30s" T).length = gt_30s T) ∧
    ((∀ r ∈ T, slotsGT1min.contains r.slot = true → isConnected r = true) →
      (get_filtered_data "Unique Connected >1min" T).length = gt_1min T) ∧
    ((∀ r ∈ T, (r.slot == "Above 2 Min") = true → isConnected r = true) →
      (get_filtered_data "Unique Connected >2min" T).length = gt_2min T) := by
  refine ⟨rfl, rfl, rfl, rfl, rfl, rfl, rfl, rfl, rfl, rfl, rfl, ?_, ?_, ?_⟩
  · intro hyp
    show (T.filter (fun r => slotsGT30.contains r.slot)).length = gt_30s T
    unfold gt_30s connectedRows
    rw [List.filter_filter]
    congr 1
    apply List.filter_congr
    intro r hr
    cases hs : slotsGT30.contains r.slot with
    | false => simp
    | true => simp [hyp r hr hs]
  · intro hyp
    show (T.filter (fun r => slotsGT1min.contains r.slot)).length = gt_1min T
    unfold gt_1min connectedRows
    rw [List.filter_filter]
    congr 1
    apply List.filter_congr
    intro r hr
    cases hs : slotsGT1min.contains r.slot with
    | false => simp
    | true => simp [hyp r hr hs]
  · intro hyp
    show (T.filter (fun r => r.slot == "Above 2 Min")).length = gt_2min T
    unfold gt_2min connectedRows
    rw [List.filter_filter]
    congr 1
    apply List.filter_congr
    intro r hr
    cases hs : r.slot == "Above 2 Min" with
    | false => simp
    | true => simp [hyp r hr hs]

/-- Concrete working table for the C1 witness: its only above-2-minute row
is connected. -/
def tableC1w : List Row :=
  [⟨"1", "A", none, "Connected", 200, "Above 2 Min", some "SDW"⟩,
   ⟨"2", "A", none, "Not Connected", 0, "No Interaction", none⟩]

/-- C1 witness: the amended theorem applied to `tableC1w`, whose
above-2-minute rows are all connected, so the `>2min` drill-down count
matches the summary metric. -/
theorem c1_witness :
    (get_filtered_data "Unique Connected >2min" tableC1w).length = gt_2min tableC1w :=
  (c1_drilldown_counts tableC1w).2.2.2.2.2.2.2.2.2.2.2.2.2 (by decide)
